import Mathlib

/-!
# Verification of the Android platform BPF loader (`loader/Loader.cpp`)

A shallow embedding of the loader pipeline: path-to-object-name derivation,
the section-name classifier, the map installer (`createMaps` /
`mapMatchesExpectations`), the relocator (`applyRelo` / `applyMapRelo`), the
program installer (`loadCodeSections`) and the code-section reader
(`readCodeSections`).  Kernel and filesystem syscalls are modelled as oracle
functions supplied in an environment record; the loader's calls to them are
recorded as an event trace so that statements such as "creates no pin" or
"issues no load syscall" can be expressed as the absence of events.

C `int` error returns are modelled as `Int`, unsigned fields as `Nat`.
-/

namespace BpfLoader

/-! ## Constants (from linux/bpf.h, errno.h and the loader itself) -/

def BPF_PROG_TYPE_UNSPEC : Nat := 0
def BPF_PROG_TYPE_SOCKET_FILTER : Nat := 1
def BPF_PROG_TYPE_KPROBE : Nat := 2
def BPF_PROG_TYPE_TRACEPOINT : Nat := 5
def BPF_PROG_TYPE_PERF_EVENT : Nat := 7

def BPF_MAP_TYPE_HASH : Nat := 1
def BPF_MAP_TYPE_DEVMAP : Nat := 14
def BPF_MAP_TYPE_DEVMAP_HASH : Nat := 25
def BPF_MAP_TYPE_RINGBUF : Nat := 27

/-- `BPF_F_RDONLY_PROG = 1 << 7`. -/
def BPF_F_RDONLY_PROG : Nat := 128

def BPF_PSEUDO_MAP_FD : Nat := 1

/-- `BPF_LD | BPF_IMM | BPF_DW = 0x00 | 0x00 | 0x18`. -/
def BPF_LD_IMM_DW : Nat := 0x18

def ENOTUNIQ : Int := 76
def EINVAL : Int := 22

/-- `BPF_ATTACH_TYPE_UNSPEC` is `BPF_CGROUP_INET_INGRESS = 0`. -/
def BPF_ATTACH_TYPE_UNSPEC : Nat := 0

/-! ## String helpers

The loader uses `android::base::Split`, `android::base::StartsWith`,
`std::string::find_last_of` and `std::string::substr`.  They are modelled on
the character list underlying a `String`. -/

/-- `android::base::StartsWith(s, prefix)`. -/
def startsWith (s p : String) : Bool := p.data.isPrefixOf s.data

/-- `android::base::Split(s, {sep})`: split on every occurrence of `sep`;
always returns at least one (possibly empty) element. -/
def splitChar (sep : Char) : List Char → List (List Char)
  | [] => [[]]
  | c :: cs =>
    match splitChar sep cs with
    | [] => [[]]
    | r :: rs => if c = sep then [] :: r :: rs else (c :: r) :: rs

/-- Index of the last occurrence of `c` in `cs` (C++ `find_last_of`),
`none` when absent (C++ `npos`). -/
def findLastIdx (cs : List Char) (c : Char) : Option Nat :=
  match cs with
  | [] => none
  | x :: xs =>
    match findLastIdx xs c with
    | some i => some (i + 1)
    | none => if x = c then some 0 else none

/-- `s.substr(0, s.find_last_of(c))`: everything strictly before the last
occurrence of `c`; the whole string when `c` does not occur
(`substr(0, npos)`). -/
def takeBeforeLast (s : String) (c : Char) : String :=
  match findLastIdx s.data c with
  | some i => ⟨s.data.take i⟩
  | none => s

/-- `android::base::Split(path, "/").back()`: the final path component.
`Split` never returns an empty vector, so the default is unreachable. -/
def lastComponent (path : String) : String :=
  ⟨(splitChar '/' path.data).getLastD []⟩

/-- `std::replace(name.begin(), name.end(), sep, '_')` specialised to `'/'`. -/
def replaceSlash (name : String) : String :=
  ⟨name.data.map (fun c => if c = '/' then '_' else c)⟩

/-! ## `pathToObjName` (Loader.cpp lines 73-81) -/

/-- `pathToObjName`: final path component, then `substr(0, find_last_of('.'))`,
then `substr(0, find_last_of('@'))`. -/
def pathToObjName (path : String) : String :=
  let filename := lastComponent path
  let name := takeBeforeLast filename '.'
  takeBeforeLast name '@'

/-- The object-name derivation as the spec words it (for comparison with
`pathToObjName`): the final path component, with the trailing `.o` removed,
and anything from an `@` onward stripped. -/
def specObjName (path : String) : String :=
  let filename := lastComponent path
  let base : String :=
    if (filename.data.reverse.take 2) = ['o', '.'] then
      ⟨filename.data.take (filename.data.length - 2)⟩
    else filename
  match base.data.findIdx? (· = '@') with
  | some i => ⟨base.data.take i⟩
  | none => base

/-! ## Section classifier (Loader.cpp lines 99-117, 294-317) -/

/-- The static `sectionNameTypes[]` table: prefix, `bpf_prog_type`,
`expected_attach_type`. -/
def sectionNameTypes : List (String × Nat × Nat) :=
  [("kprobe/", BPF_PROG_TYPE_KPROBE, BPF_ATTACH_TYPE_UNSPEC),
   ("kretprobe/", BPF_PROG_TYPE_KPROBE, BPF_ATTACH_TYPE_UNSPEC),
   ("perf_event/", BPF_PROG_TYPE_PERF_EVENT, BPF_ATTACH_TYPE_UNSPEC),
   ("skfilter/", BPF_PROG_TYPE_SOCKET_FILTER, BPF_ATTACH_TYPE_UNSPEC),
   ("tracepoint/", BPF_PROG_TYPE_TRACEPOINT, BPF_ATTACH_TYPE_UNSPEC),
   ("uprobe/", BPF_PROG_TYPE_KPROBE, BPF_ATTACH_TYPE_UNSPEC),
   ("uretprobe/", BPF_PROG_TYPE_KPROBE, BPF_ATTACH_TYPE_UNSPEC)]

/-- `getSectionType`: first table prefix matching the name wins; otherwise the
dynamic `fuse/` prefix resolves to the value read from
`/sys/fs/fuse/bpf_prog_type_fuse` (passed in as `fuseType`, the result of
`getFuseProgType()`); otherwise `BPF_PROG_TYPE_UNSPEC`. -/
def getSectionType (fuseType : Nat) (name : String) : Nat :=
  match sectionNameTypes.find? (fun e => startsWith name e.1) with
  | some e => e.2.1
  | none => if startsWith name "fuse/" then fuseType else BPF_PROG_TYPE_UNSPEC

/-- `getExpectedAttachType`: first table prefix matching the name wins. -/
def getExpectedAttachType (name : String) : Nat :=
  match sectionNameTypes.find? (fun e => startsWith name e.1) with
  | some e => e.2.2
  | none => BPF_ATTACH_TYPE_UNSPEC

/-- `getSectionName(type)`: the first table entry with that program type. -/
def getSectionName (t : Nat) : String :=
  match sectionNameTypes.find? (fun e => e.2.1 = t) with
  | some e => e.1
  | none => "UNKNOWN SECTION NAME " ++ toString t

/-- `IsAllowed(type, allowed, numAllowed)`: a null array permits anything;
the `UNSPEC` sentinel in the array matches whatever `getFuseProgType()`
returns. -/
def isAllowed (fuseType : Nat) (t : Nat) (allowed : Option (List Nat)) : Bool :=
  match allowed with
  | none => true
  | some l => l.any (fun a => if a = BPF_PROG_TYPE_UNSPEC then t = fuseType else t = a)

/-! ## Map installer (Loader.cpp lines 484-663)

`struct bpf_map_def` fields used by the loader (all unsigned in the source). -/

structure MapDef where
  type : Nat
  key_size : Nat
  value_size : Nat
  max_entries : Nat
  map_flags : Nat
  uid : Nat
  gid : Nat
  mode : Nat
  min_kver : Nat
  max_kver : Nat
  shared : Bool
  zero : Nat
  deriving Repr, DecidableEq

/-- Results of the `bpfGetFd*` queries on a map fd.  The wrappers return
`int` and `-1` on failure, hence `Int`. -/
structure LiveAttrs where
  type : Int
  keySize : Int
  valueSize : Int
  maxEntries : Int
  mapFlags : Int
  deriving Repr, DecidableEq

/-- `mapMatchesExpectations(fd, mapName, mapDef, type)` (lines 484-530) with
the five `bpfGetFd*` query results passed in as `live`.  `type` is the
(possibly downgraded) type computed by `createMaps`; the `mapName` parameter
of the source is used only for logging and is omitted.  Mirrors the source:
`desired_map_flags` ORs in `BPF_F_RDONLY_PROG` for the DEVMAP variants,
`desired_max_entries` is raised to the page size for ring buffers, then five
equality comparisons. -/
def mapMatchesExpectations (live : LiveAttrs) (mapDef : MapDef) (type : Nat)
    (pageSize : Nat) : Bool :=
  let desiredMapFlags : Nat :=
    if type = BPF_MAP_TYPE_DEVMAP ∨ type = BPF_MAP_TYPE_DEVMAP_HASH then
      mapDef.map_flags ||| BPF_F_RDONLY_PROG
    else mapDef.map_flags
  let desiredMaxEntries : Nat :=
    if type = BPF_MAP_TYPE_RINGBUF ∧ mapDef.max_entries < pageSize then pageSize
    else mapDef.max_entries
  (live.type == (type : Int)) && (live.keySize == (mapDef.key_size : Int)) &&
    (live.valueSize == (mapDef.value_size : Int)) &&
    (live.maxEntries == (desiredMaxEntries : Int)) &&
    (live.mapFlags == (desiredMapFlags : Int))

/-- The `union bpf_attr` request built for `bpf(BPF_MAP_CREATE, req)`
(lines 609-616).  The source copies the name with `strlcpy` into a 16-byte
field; the truncation is not modelled. -/
structure CreateReq where
  map_type : Nat
  key_size : Nat
  value_size : Nat
  max_entries : Nat
  map_flags : Nat
  map_name : String
  deriving Repr, DecidableEq

/-- Syscalls the loader issues that create or retrieve kernel objects, plus
the verifier log lines it emits; recorded as a trace. -/
inductive Event where
  | mapRetrieve (path : String)
  | mapCreate (req : CreateReq)
  | mapPin (path : String)
  | progRetrieve (path : String)
  | progLoad (name : String)
  | progPin (path : String)
  | logLine (s : String)
  deriving Repr, DecidableEq

/-- Environment for `createMaps`: the sampled kernel version and page size,
and oracles for the filesystem / BPF syscalls.  `retrieveFd` / `createFd`
return either an fd or the `errno` of the failure; `pinRes` / `chmodRes` /
`chownRes` return `some errno` on failure and `none` on success. -/
structure MapEnv where
  kvers : Nat
  pageSize : Nat
  kernelAtLeast54 : Bool
  pinExists : String → Bool
  retrieveFd : String → Except Nat Nat
  createFd : CreateReq → Except Nat Nat
  attrs : Nat → LiveAttrs
  pinRes : String → Option Nat
  chmodRes : String → Nat → Option Nat
  chownRes : String → Nat → Nat → Option Nat

/-- Pin location (line 597):
`/sys/fs/bpf/<prefix>map_<objName-or-empty>_<mapName>`. -/
def mapPinLoc (pre objName : String) (md : MapDef) (name : String) : String :=
  "/sys/fs/bpf/" ++ pre ++ "map_" ++ (if md.shared then "" else objName) ++ "_" ++ name

/-- Type downgrade (lines 574-584): `DEVMAP_HASH` becomes `HASH` on kernels
older than 5.4.0. -/
def adjustedType (env : MapEnv) (md : MapDef) : Nat :=
  if md.type = BPF_MAP_TYPE_DEVMAP_HASH ∧ ¬env.kernelAtLeast54 then BPF_MAP_TYPE_HASH
  else md.type

/-- `max_entries` adjustment (lines 589-592): ring buffers are raised to the
page size. -/
def adjustedMaxEntries (env : MapEnv) (t : Nat) (md : MapDef) : Nat :=
  if t = BPF_MAP_TYPE_RINGBUF ∧ md.max_entries < env.pageSize then env.pageSize
  else md.max_entries

/-- The creation request `createMaps` builds (lines 609-616): the adjusted
type and max_entries, and the MapDef's `key_size`, `value_size` and
`map_flags` verbatim. -/
def createReqFor (env : MapEnv) (md : MapDef) (name : String) : CreateReq :=
  ⟨adjustedType env md, md.key_size, md.value_size,
   adjustedMaxEntries env (adjustedType env md) md, md.map_flags, name⟩

/-- Outcome of one iteration of the `createMaps` loop:
`abort` models the `abort()` on a non-zero `zero` field; `fail e evs` models
`return e` with the syscalls issued so far; `ok fd evs` models a completed
iteration (`fd = none` is the `unique_fd()` placeholder pushed for a
version-gated map). -/
inductive StepOut where
  | abort
  | fail (e : Int) (evs : List Event)
  | ok (fd : Option Nat) (evs : List Event)
  deriving Repr, DecidableEq

/-- The tail of a `createMaps` iteration once an fd has been obtained
(lines 624-659): the expectation check with its `-ENOTUNIQ` failure, and —
for newly created maps only — pin, chmod and chown. -/
def createMapFinish (env : MapEnv) (md : MapDef) (t : Nat) (loc : String)
    (reuse : Bool) (evs : List Event) (fd : Nat) : StepOut :=
  if ¬ mapMatchesExpectations (env.attrs fd) md t env.pageSize then
    .fail (-ENOTUNIQ) evs
  else if reuse then .ok (some fd) evs
  else
    match env.pinRes loc with
    | some en => .fail (-(en : Int)) evs
    | none =>
      let evs := evs ++ [Event.mapPin loc]
      match env.chmodRes loc md.mode with
      | some en => .fail (-(en : Int)) evs
      | none =>
        match env.chownRes loc md.uid md.gid with
        | some en => .fail (-(en : Int)) evs
        | none => .ok (some fd) evs

/-- One iteration of the `createMaps` loop (lines 557-660) for `md` paired
with `name`. -/
def createMapStep (env : MapEnv) (objName pre : String) (md : MapDef)
    (name : String) : StepOut :=
  if md.zero ≠ 0 then .abort
  else if env.kvers < md.min_kver then .ok none []
  else if md.max_kver ≤ env.kvers then .ok none []
  else
    let t := adjustedType env md
    let loc := mapPinLoc pre objName md name
    let reuse := env.pinExists loc
    let fdRes := if reuse then env.retrieveFd loc else env.createFd (createReqFor env md name)
    let evs := if reuse then [Event.mapRetrieve loc] else [Event.mapCreate (createReqFor env md name)]
    match fdRes with
    | .error en => .fail (-(en : Int)) evs
    | .ok fd => createMapFinish env md t loc reuse evs fd

/-- Outcome of the whole `createMaps` loop: the fd vector (aligned with the
MapDef/name vector; `none` is a placeholder) and the event trace. -/
inductive MapsOut where
  | abort
  | fail (e : Int) (evs : List Event)
  | ok (fds : List (Option Nat)) (evs : List Event)
  deriving Repr, DecidableEq

/-- The `createMaps` loop over the MapDefs zipped with their symbol names
(the source indexes `md[i]` and `mapNames[i]` in lockstep). -/
def createMapsLoop (env : MapEnv) (objName pre : String) :
    List (MapDef × String) → MapsOut
  | [] => .ok [] []
  | (md, name) :: rest =>
    match createMapStep env objName pre md name with
    | .abort => .abort
    | .fail e evs => .fail e evs
    | .ok fd evs =>
      match createMapsLoop env objName pre rest with
      | .abort => .abort
      | .fail e evs2 => .fail e (evs ++ evs2)
      | .ok fds evs2 => .ok (fd :: fds) (evs ++ evs2)

/-! ## Relocator (Loader.cpp lines 665-716) -/

/-- One `struct bpf_insn`: 8-bit opcode, two 4-bit register fields, 16-bit
signed offset, 32-bit signed immediate. -/
structure BpfInsn where
  code : Nat
  dst_reg : Nat
  src_reg : Nat
  off : Int
  imm : Int
  deriving Repr, DecidableEq

/-- `applyRelo(insnsPtr, offset, fd)` (lines 665-688): the instruction at
`offset / sizeof(struct bpf_insn)` gets `imm = fd` and
`src_reg = BPF_PSEUDO_MAP_FD` when its opcode is `BPF_LD | BPF_IMM | BPF_DW`;
any other opcode is logged and left unchanged.  The source indexes the
instruction array unchecked; an out-of-bounds offset is undefined behaviour
there and leaves the stream unchanged here, so theorems are stated for
in-bounds offsets. -/
def applyRelo (insns : List BpfInsn) (offset : Nat) (fd : Int) : List BpfInsn :=
  let insnIndex := offset / 8
  match insns.get? insnIndex with
  | none => insns
  | some insn =>
    if insn.code ≠ BPF_LD_IMM_DW then insns
    else insns.set insnIndex { insn with imm := fd, src_reg := BPF_PSEUDO_MAP_FD }

/-- One `Elf64_Rel` entry as the relocator uses it: byte offset into the
instruction buffer and the symbol-table index from `ELF64_R_SYM(r_info)`. -/
structure RelEntry where
  r_offset : Nat
  symIndex : Nat
  deriving Repr, DecidableEq

/-- The body of `applyMapRelo`'s inner loop (lines 700-714) for one
relocation entry: resolve the symbol name by index in the unsorted symbol
table (`getSymNameByIdx`; an out-of-range index makes the source abandon the
remaining relocations, modelled as leaving this entry unapplied), then
linear-scan the map-name vector, and on the first match apply the relocation
with the paired fd.  `mapFds[j]` is indexed unchecked in the source;
`createMaps` guarantees one fd per map name. -/
def applyMapReloEntry (symNames mapNames : List String) (mapFds : List Int)
    (insns : List BpfInsn) (r : RelEntry) : List BpfInsn :=
  match symNames.get? r.symIndex with
  | none => insns
  | some symName =>
    match mapNames.findIdx? (· = symName) with
    | some j => applyRelo insns r.r_offset (mapFds.getD j 0)
    | none => insns

/-! ## Program installer (Loader.cpp lines 718-829) -/

/-- `struct bpf_prog_def` fields the loader uses. -/
structure ProgDefRec where
  uid : Nat
  gid : Nat
  min_kver : Nat
  max_kver : Nat
  optional : Bool
  deriving Repr, DecidableEq

/-- A `codeSection` as `loadCodeSections` consumes it: program type, expected
attach type, section name (slashes already replaced), instruction data,
relocation data and the paired ProgDef.  Instruction and relocation contents
are irrelevant to the program installer; their sizes are kept. -/
structure CodeSec where
  type : Nat
  expected_attach_type : Nat
  name : String
  dataSize : Nat
  relSize : Nat
  prog_def : Option ProgDefRec
  deriving Repr, DecidableEq

/-- Environment for `loadCodeSections`.  `retrieveProg` returns the fd from
`retrieveProgram` (negative on failure).  `bpfProgLoad` returns the fd from
`bpf(BPF_PROG_LOAD, req)` (negative on failure) together with the verifier
log-buffer lines (`Split(log_buf.data(), "\n")`). -/
structure ProgEnv where
  kvers : Nat
  pinExists : String → Bool
  retrieveProg : String → Int
  bpfProgLoad : String → Int × List String
  pinRes : String → Option Nat
  chmodRes : String → Option Nat
  chownRes : String → Nat → Nat → Option Nat

/-- Pin location (line 755): `/sys/fs/bpf/<prefix>prog_<objName>_<progName>`. -/
def progPinLoc (pre objName pname : String) : String :=
  "/sys/fs/bpf/" ++ pre ++ "prog_" ++ objName ++ "_" ++ pname

/-- Outcome of `loadCodeSections`: error code or success, with the event
trace. -/
inductive ProgsOut where
  | fail (e : Int) (evs : List Event)
  | ok (evs : List Event)
  deriving Repr, DecidableEq

/-- Prefix already-emitted events onto the outcome of the rest of the loop. -/
def prependEvs (evs : List Event) : ProgsOut → ProgsOut
  | .fail e evs2 => .fail e (evs ++ evs2)
  | .ok evs2 => .ok (evs ++ evs2)

/-- The `loadCodeSections` per-section loop (lines 729-826).  For each
section: a missing ProgDef returns `-EINVAL`; a `[min_kver, max_kver)` range
excluding `kvers` skips the section; otherwise the `$`-stripped name selects
the pin path, which is either retrieved (reuse) or loaded through the
verifier.  A failed verifier load emits the log lines and either continues
(ProgDef marked optional) or fails with the fd value; a failed retrieve
always fails with the fd value.  Newly loaded programs are pinned, chmodded
0440 and chowned to the ProgDef's uid/gid. -/
def loadCSLoop (env : ProgEnv) (objName pre : String) : List CodeSec → ProgsOut
  | [] => .ok []
  | cs :: rest =>
    match cs.prog_def with
    | none => .fail (-EINVAL) []
    | some pd =>
      if env.kvers < pd.min_kver ∨ pd.max_kver ≤ env.kvers then
        loadCSLoop env objName pre rest
      else
        let pname := takeBeforeLast cs.name '$'
        let loc := progPinLoc pre objName pname
        let reuse := env.pinExists loc
        let (fd, evs) :=
          if reuse then (env.retrieveProg loc, [Event.progRetrieve loc])
          else
            let (fd, log) := env.bpfProgLoad cs.name
            if fd < 0 then (fd, Event.progLoad cs.name :: log.map Event.logLine)
            else (fd, [Event.progLoad cs.name])
        if fd < 0 ∧ ¬reuse ∧ pd.optional then
          prependEvs evs (loadCSLoop env objName pre rest)
        else if fd < 0 then .fail fd evs
        else if reuse then prependEvs evs (loadCSLoop env objName pre rest)
        else
          match env.pinRes loc with
          | some en => .fail (-(en : Int)) evs
          | none =>
            let evs := evs ++ [Event.progPin loc]
            match env.chmodRes loc with
            | some en => .fail (-(en : Int)) evs
            | none =>
              match env.chownRes loc pd.uid pd.gid with
              | some en => .fail (-(en : Int)) evs
              | none => prependEvs evs (loadCSLoop env objName pre rest)

/-- `loadCodeSections` (lines 718-829): fails with `-EINVAL` when the kernel
version is unavailable (`!kvers`), otherwise runs the per-section loop. -/
def loadCodeSections (env : ProgEnv) (objName pre : String)
    (csl : List CodeSec) : ProgsOut :=
  if env.kvers = 0 then .fail (-EINVAL) [] else loadCSLoop env objName pre csl

/-! ## Code-section reader (Loader.cpp lines 394-470)

The ELF accessors the loop calls are modelled as fields of an abstract file
image: `sections` is the section-header table with each header's resolved
name (`getSymName(shTable[i].sh_name, ...)`) and data size, and `funcSyms`
is `getSectionSymNames(elfFile, secName, csSymNames, STT_FUNC)`.  The
prologue (lines 399-408) that reads the section headers, the `progs` records
and the `progs` symbol names is modelled by passing its results
(`sections`, `progDefs`, `progDefNames`) in the image. -/

structure ElfSectionM where
  name : String
  size : Nat
  deriving Repr, DecidableEq

structure ElfFileM where
  sections : List ElfSectionM
  funcSyms : String → List String
  progDefNames : List String
  progDefs : List ProgDefRec

/-- The ProgDef pairing (lines 445-450): the first `progs` symbol name equal
to `<progsym>_def` selects the ProgDef of the same index.  The source
indexes `pd[i]` unchecked; the pairing rule keeps the two vectors aligned. -/
def pairProgDef (progDefNames : List String) (pd : List ProgDefRec)
    (sym : String) : Option ProgDefRec :=
  match progDefNames.findIdx? (· = sym ++ "_def") with
  | some i => pd.get? i
  | none => none

/-- Outcome of `readCodeSections`: an error return, a successful return with
the accumulated code sections, or — modelling the unchecked
`shTable[i + 1]` vector access — an out-of-range access at the given index
(undefined behaviour in the C++). -/
inductive ReadCSOut where
  | err (e : Int)
  | oob (idx : Nat)
  | ok (cs : List CodeSec)
  deriving Repr, DecidableEq

/-- The `readCodeSections` per-section loop (lines 410-468).  `i` is the
loop index into the full section-header table `file.sections`; `rem` is the
number of iterations the `i < entries` loop condition still allows
(`entries - i`), kept structural so the function evaluates.  For each
section: unrecognized names are skipped; a recognized but disallowed type
returns `-1`; a recognized section with no `STT_FUNC` symbol returns
success immediately with the sections accumulated so far (line 444 returns
`ret = 0`); otherwise the ProgDef is paired and, when the section data is
non-empty, the relocation-section lookup reads `shTable[i + 1].sh_name`
under the guard `cs_temp.data.size() > 0 && i < entries` (line 453) — the
access is modelled through `get?` with an out-of-range index reported as
`.oob`.  Non-empty sections are appended to the result. -/
def readCSLoop (fuseType : Nat) (allowed : Option (List Nat)) (file : ElfFileM) :
    Nat → Nat → List CodeSec → ReadCSOut
  | 0, _, acc => .ok acc.reverse
  | rem + 1, i, acc =>
    match file.sections.get? i with
    | none => .ok acc.reverse
    | some sec =>
      let ptype := getSectionType fuseType sec.name
      if ptype = BPF_PROG_TYPE_UNSPEC then readCSLoop fuseType allowed file rem (i + 1) acc
      else if ¬ isAllowed fuseType ptype allowed then .err (-1)
      else
        let csSyms := file.funcSyms sec.name
        if csSyms = [] then .ok acc.reverse
        else
          let pdOpt := pairProgDef file.progDefNames file.progDefs (csSyms.getD 0 "")
          let cs : CodeSec :=
            ⟨ptype, getExpectedAttachType sec.name, replaceSlash sec.name,
             sec.size, 0, pdOpt⟩
          if sec.size > 0 ∧ i < file.sections.length then
            match file.sections.get? (i + 1) with
            | none => .oob (i + 1)
            | some nxt =>
              let cs := if nxt.name = ".rel" ++ sec.name then { cs with relSize := nxt.size } else cs
              readCSLoop fuseType allowed file rem (i + 1) (cs :: acc)
          else
            readCSLoop fuseType allowed file rem (i + 1) acc

/-- `readCodeSections` after its prologue: the loop from index 0 with
`entries = shTable.size()` iterations. -/
def readCodeSectionsM (fuseType : Nat) (allowed : Option (List Nat))
    (file : ElfFileM) : ReadCSOut :=
  readCSLoop fuseType allowed file file.sections.length 0 []

/-! ## Helper lemmas -/

/-- `Split` never returns an empty vector. -/
theorem splitChar_ne_nil (sep : Char) (l : List Char) : splitChar sep l ≠ [] := by
  cases l with
  | nil => simp [splitChar]
  | cons c cs =>
    unfold splitChar
    cases splitChar sep cs with
    | nil => simp
    | cons r rs =>
      by_cases h : c = sep <;> simp [h]

/-- A list containing the separator splits into at least two pieces. -/
theorem splitChar_length_ge_two (sep : Char) (l : List Char) (h : sep ∈ l) :
    2 ≤ (splitChar sep l).length := by
  induction l with
  | nil => cases h
  | cons c cs ih =>
    unfold splitChar
    cases hsp : splitChar sep cs with
    | nil => exact absurd hsp (splitChar_ne_nil sep cs)
    | cons r rs =>
      by_cases hc : c = sep
      · simp [hc]
      · have hmem : sep ∈ cs := by
          cases List.mem_cons.mp h with
          | inl h' => exact absurd h'.symm hc
          | inr h' => exact h'
        have := ih hmem
        rw [hsp] at this
        simpa [hc] using this

/-- The last piece of a split at the final separator occurrence: when the
separator does not occur in `ys`, the last element of
`splitChar sep (xs ++ sep :: ys)` is `ys`. -/
theorem splitChar_getLastD (sep : Char) (ys : List Char) (hys : sep ∉ ys) :
    ∀ xs, (splitChar sep (xs ++ sep :: ys)).getLastD [] = ys := by
  have hys' : splitChar sep ys = [ys] := by
    induction ys with
    | nil => rfl
    | cons c cs ih =>
      have hc : ¬ c = sep := fun h => hys (by simp [h])
      have hcs : sep ∉ cs := fun h => hys (List.mem_cons_of_mem _ h)
      unfold splitChar
      rw [ih hcs]
      simp [hc]
  intro xs
  induction xs with
  | nil =>
    show (splitChar sep (sep :: ys)).getLastD [] = ys
    unfold splitChar
    rw [hys']
    simp
  | cons x xs ih =>
    show (splitChar sep (x :: (xs ++ sep :: ys))).getLastD [] = ys
    unfold splitChar
    cases hsp : splitChar sep (xs ++ sep :: ys) with
    | nil => exact absurd hsp (splitChar_ne_nil _ _)
    | cons r rs =>
      rw [hsp] at ih
      have hlen : 2 ≤ (r :: rs).length := by
        rw [← hsp]
        exact splitChar_length_ge_two sep _ (by simp)
      have hrs : rs ≠ [] := by
        intro h
        rw [h] at hlen
        simp at hlen
      show (if x = sep then [] :: r :: rs else (x :: r) :: rs).getLastD [] = ys
      by_cases hx : x = sep
      · rw [if_pos hx, List.getLastD_cons]
        simpa [List.getLastD_cons] using ih
      · rw [if_neg hx, List.getLastD_cons]
        rw [List.getLastD_cons] at ih
        cases rs with
        | nil => exact absurd rfl hrs
        | cons r2 rs2 => simpa [List.getLastD_cons] using ih

/-- `find_last_of` misses: no occurrence yields `npos`. -/
theorem findLastIdx_eq_none (c : Char) (l : List Char) (h : c ∉ l) :
    findLastIdx l c = none := by
  induction l with
  | nil => rfl
  | cons x xs ih =>
    have hx : ¬ x = c := fun h' => h (by simp [h'])
    have hxs : c ∉ xs := fun h' => h (List.mem_cons_of_mem _ h')
    unfold findLastIdx
    rw [ih hxs]
    simp [hx]

/-- `find_last_of` finds the final occurrence: when `c` does not occur in
`t`, the last occurrence in `s ++ c :: t` is at index `s.length`. -/
theorem findLastIdx_append_last (c : Char) (s t : List Char) (ht : c ∉ t) :
    findLastIdx (s ++ c :: t) c = some s.length := by
  induction s with
  | nil =>
    show findLastIdx (c :: t) c = some 0
    unfold findLastIdx
    rw [findLastIdx_eq_none c t ht]
    simp
  | cons x xs ih =>
    show findLastIdx (x :: (xs ++ c :: t)) c = some (xs.length + 1)
    unfold findLastIdx
    rw [ih]

/-- `substr(0, find_last_of(c))` on a string of the shape `s ++ c :: t` with
no `c` in `t` yields `s`. -/
theorem takeBeforeLast_append (c : Char) (s t : List Char) (ht : c ∉ t) :
    takeBeforeLast ⟨s ++ c :: t⟩ c = ⟨s⟩ := by
  unfold takeBeforeLast
  rw [findLastIdx_append_last c s t ht]
  show (⟨(s ++ c :: t).take s.length⟩ : String) = ⟨s⟩
  rw [List.take_left]

/-- `substr(0, find_last_of(c))` is the identity when `c` does not occur. -/
theorem takeBeforeLast_no_occ (c : Char) (s : String) (h : c ∉ s.data) :
    takeBeforeLast s c = s := by
  unfold takeBeforeLast
  rw [findLastIdx_eq_none c s.data h]

/-- `Split(path, "/").back()` on `dir ++ "/" ++ f` with no slash in `f` is
`f`. -/
theorem lastComponent_append (dir : String) (f : List Char) (hf : '/' ∉ f) :
    lastComponent ⟨dir.data ++ '/' :: f⟩ = ⟨f⟩ := by
  unfold lastComponent
  rw [splitChar_getLastD '/' f hf dir.data]

/-- A successful `createMaps` loop produces one fd entry per MapDef/name
pair. -/
theorem createMapsLoop_length (env : MapEnv) (objName pre : String) :
    ∀ (l : List (MapDef × String)) (fds : List (Option Nat)) (evs : List Event),
      createMapsLoop env objName pre l = .ok fds evs → fds.length = l.length := by
  intro l
  induction l with
  | nil => intro fds evs h; cases h; rfl
  | cons p rest ih =>
    intro fds evs h
    unfold createMapsLoop at h
    cases hstep : createMapStep env objName pre p.1 p.2 <;> rw [hstep] at h
    · cases h
    · cases h
    · rename_i fd evs1
      cases hrest : createMapsLoop env objName pre rest <;> rw [hrest] at h
      · cases h
      · cases h
      · rename_i fds2 evs2
        cases h
        simp [ih fds2 evs2 hrest]

/-- Each entry of a successful `createMaps` loop's fd vector is the fd its
own `createMapStep` produced: index alignment between the MapDef/name vector
and the fd vector. -/
theorem createMapsLoop_get (env : MapEnv) (objName pre : String) :
    ∀ (l : List (MapDef × String)) (fds : List (Option Nat)) (evs : List Event)
      (i : Nat) (md : MapDef) (name : String),
      createMapsLoop env objName pre l = .ok fds evs →
      l.get? i = some (md, name) →
      ∃ fd evs', createMapStep env objName pre md name = .ok fd evs' ∧
        fds.get? i = some fd := by
  intro l
  induction l with
  | nil => intro fds evs i md name _ hi; cases hi
  | cons p rest ih =>
    intro fds evs i md name h hi
    unfold createMapsLoop at h
    cases hstep : createMapStep env objName pre p.1 p.2 <;> rw [hstep] at h
    · cases h
    · cases h
    · rename_i fd evs1
      cases hrest : createMapsLoop env objName pre rest <;> rw [hrest] at h
      · cases h
      · cases h
      · rename_i fds2 evs2
        cases h
        cases i with
        | zero =>
          cases hi
          exact ⟨fd, evs1, hstep, rfl⟩
        | succ i => exact ih fds2 evs2 i md name hrest hi

/-- When the tail of a `createMaps` iteration completes with an fd, the
expectation check passed for that fd. -/
theorem createMapFinish_ok (env : MapEnv) (md : MapDef) (t : Nat) (loc : String)
    (reuse : Bool) (evs evs' : List Event) (ofd : Option Nat) (fd : Nat)
    (h : createMapFinish env md t loc reuse evs fd = .ok ofd evs') :
    ofd = some fd ∧ mapMatchesExpectations (env.attrs fd) md t env.pageSize = true := by
  unfold createMapFinish at h
  by_cases hmis : mapMatchesExpectations (env.attrs fd) md t env.pageSize = true
  · rw [if_neg (not_not_intro hmis)] at h
    by_cases hre : reuse = true
    · rw [if_pos hre] at h
      cases h
      exact ⟨rfl, hmis⟩
    · rw [if_neg hre] at h
      cases hpin : env.pinRes loc <;> rw [hpin] at h
      · cases hchmod : env.chmodRes loc md.mode <;> rw [hchmod] at h
        · cases hchown : env.chownRes loc md.uid md.gid <;> rw [hchown] at h
          · cases h
            exact ⟨rfl, hmis⟩
          · cases h
        · cases h
      · cases h
  · rw [if_pos hmis] at h
    cases h

/-! ## Theorems -/

/-- **C1.** For every relocation entry consumed by the relocator whose
resolved symbol name equals some entry of the map-name vector: if the
instruction at `offset / sizeof(instruction)` has opcode
`BPF_LD | BPF_IMM | BPF_DW`, then after relocation that instruction's
immediate equals the paired map fd and its source-register field equals
`BPF_PSEUDO_MAP_FD`, every other field of that instruction is kept, and no
other instruction of the stream changes; if the opcode differs, the
instruction stream is left entirely unchanged. -/
theorem c1_relocation_effect (symNames mapNames : List String) (mapFds : List Int)
    (insns : List BpfInsn) (r : RelEntry) (symName : String) (j : Nat) (fd : Int)
    (insn : BpfInsn)
    (hsym : symNames.get? r.symIndex = some symName)
    (hj : mapNames.findIdx? (· = symName) = some j)
    (hfd : mapFds.get? j = some fd)
    (hins : insns.get? (r.r_offset / 8) = some insn) :
    (insn.code = BPF_LD_IMM_DW →
      (applyMapReloEntry symNames mapNames mapFds insns r).get? (r.r_offset / 8) =
        some { insn with imm := fd, src_reg := BPF_PSEUDO_MAP_FD } ∧
      ∀ k, k ≠ r.r_offset / 8 →
        (applyMapReloEntry symNames mapNames mapFds insns r).get? k = insns.get? k) ∧
    (insn.code ≠ BPF_LD_IMM_DW →
      applyMapReloEntry symNames mapNames mapFds insns r = insns) := by
  have hgetD : mapFds.getD j 0 = fd := by
    rw [List.getD_eq_getD_get?, hfd]; rfl
  simp only [applyMapReloEntry, hsym, hj, hgetD, applyRelo, hins]
  constructor
  · intro hcode
    rw [if_neg (by simp [hcode])]
    have hlt : r.r_offset / 8 < insns.length := by
      rcases List.get?_eq_some.mp hins with ⟨h, _⟩
      exact h
    constructor
    · rw [List.get?_eq_getElem?]
      exact List.getElem?_set_eq_of_lt _ hlt
    · intro k hk
      rw [List.get?_eq_getElem?, List.get?_eq_getElem?,
        List.getElem?_set_ne (Ne.symm hk)]
  · intro hcode
    rw [if_pos (by simpa using hcode)]

/-- **C2.** Version gating.  (i) A MapDef whose `[min_kver, max_kver)` range
excludes the running kernel version makes its `createMaps` iteration push the
empty-fd placeholder and issue no syscall at all (empty event trace, hence no
pin).  (ii) In a successful `createMaps` run the placeholder sits at that
MapDef's own index of the output fd vector, whose length equals the number of
MapDef/name pairs (index alignment).  (iii) A ProgDef whose range excludes
the kernel version makes `loadCodeSections` skip its program entirely: the
outcome is identical to the run without that section — no load syscall, no
pin, no events. -/
theorem c2_version_gating :
    (∀ (env : MapEnv) (objName pre : String) (md : MapDef) (name : String),
      md.zero = 0 →
      (env.kvers < md.min_kver ∨ md.max_kver ≤ env.kvers) →
      createMapStep env objName pre md name = .ok none []) ∧
    (∀ (env : MapEnv) (objName pre : String) (l : List (MapDef × String))
      (fds : List (Option Nat)) (evs : List Event) (i : Nat) (md : MapDef)
      (name : String),
      createMapsLoop env objName pre l = .ok fds evs →
      l.get? i = some (md, name) →
      (env.kvers < md.min_kver ∨ md.max_kver ≤ env.kvers) →
      fds.get? i = some none ∧ fds.length = l.length) ∧
    (∀ (env : ProgEnv) (objName pre : String) (cs : CodeSec) (rest : List CodeSec)
      (pd : ProgDefRec),
      cs.prog_def = some pd →
      (env.kvers < pd.min_kver ∨ pd.max_kver ≤ env.kvers) →
      loadCodeSections env objName pre (cs :: rest) = loadCodeSections env objName pre rest) := by
  refine ⟨?_, ?_, ?_⟩
  · intro env objName pre md name hz hg
    unfold createMapStep
    rw [if_neg (by omega)]
    by_cases h1 : env.kvers < md.min_kver
    · rw [if_pos h1]
    · rw [if_neg h1, if_pos (hg.resolve_left h1)]
  · intro env objName pre l fds evs i md name h hi hg
    refine ⟨?_, createMapsLoop_length env objName pre l fds evs h⟩
    obtain ⟨fd, evs', hstep, hget⟩ := createMapsLoop_get env objName pre l fds evs i md name h hi
    unfold createMapStep at hstep
    by_cases hz : md.zero ≠ 0
    · rw [if_pos hz] at hstep; cases hstep
    · rw [if_neg hz] at hstep
      by_cases h1 : env.kvers < md.min_kver
      · rw [if_pos h1] at hstep
        cases hstep
        exact hget
      · rw [if_neg h1, if_pos (hg.resolve_left h1)] at hstep
        cases hstep
        exact hget
  · intro env objName pre cs rest pd hdef hg
    unfold loadCodeSections
    by_cases hk : env.kvers = 0
    · rw [if_pos hk, if_pos hk]
    · rw [if_neg hk, if_neg hk]
      show loadCSLoop env objName pre (cs :: rest) = loadCSLoop env objName pre rest
      simp only [loadCSLoop, hdef]
      rw [if_pos hg]

/-- **C2 witness.** A MapDef with `min_kver = 100` on a kernel reporting 5
yields the placeholder with no events, both at step level and at index 0 of a
one-entry run; a ProgDef with the same range makes `loadCodeSections` of its
one-section list equal to the empty run. -/
theorem c2_version_gating_witness :
    createMapStep
      ⟨5, 4096, true, fun _ => false, fun _ => .error 2, fun _ => .ok 3,
       fun _ => ⟨1, 4, 4, 8, 0⟩, fun _ => none, fun _ _ => none, fun _ _ _ => none⟩
      "o" "" ⟨1, 4, 4, 8, 0, 0, 0, 0, 100, 200, false, 0⟩ "m" = .ok none [] ∧
    (([none] : List (Option Nat)).get? 0 = some none ∧
      ([none] : List (Option Nat)).length =
        [((⟨1, 4, 4, 8, 0, 0, 0, 0, 100, 200, false, 0⟩ : MapDef), "m")].length) ∧
    loadCodeSections
      ⟨5, fun _ => false, fun _ => -1, fun _ => (4, []), fun _ => none,
       fun _ => none, fun _ _ _ => none⟩ "o" ""
      [⟨5, 0, "n", 8, 0, some ⟨0, 0, 100, 200, true⟩⟩] =
    loadCodeSections
      ⟨5, fun _ => false, fun _ => -1, fun _ => (4, []), fun _ => none,
       fun _ => none, fun _ _ _ => none⟩ "o" "" [] := by
  exact ⟨c2_version_gating.1 _ "o" "" _ "m" rfl (.inl (by decide)),
    c2_version_gating.2.1
      ⟨5, 4096, true, fun _ => false, fun _ => .error 2, fun _ => .ok 3,
       fun _ => ⟨1, 4, 4, 8, 0⟩, fun _ => none, fun _ _ => none, fun _ _ _ => none⟩
      "o" "" [(⟨1, 4, 4, 8, 0, 0, 0, 0, 100, 200, false, 0⟩, "m")] [none] [] 0 _ "m"
      rfl rfl (.inl (by decide)),
    c2_version_gating.2.2 _ "o" "" _ [] ⟨0, 0, 100, 200, true⟩ rfl (.inl (by decide))⟩

/-- **C3.** Shape verification.  (i) `mapMatchesExpectations` returns true
exactly when the five live kernel attributes (type, key size, value size,
max entries, flags) equal the computed desired attributes.  (ii) Whenever
`createMaps` obtains an fd — whether by reusing an existing pin or by
creating the map — and the live attributes mismatch the desired ones, the
iteration fails with the distinguished `-ENOTUNIQ` code.  (iii) Whenever an
iteration completes with an fd, the live attributes of that fd match the
desired ones. -/
theorem c3_shape_verification :
    (∀ (live : LiveAttrs) (md : MapDef) (t ps : Nat),
      mapMatchesExpectations live md t ps = true ↔
        (live.type = (t : Int) ∧ live.keySize = (md.key_size : Int) ∧
         live.valueSize = (md.value_size : Int) ∧
         live.maxEntries =
           ((if t = BPF_MAP_TYPE_RINGBUF ∧ md.max_entries < ps then ps
             else md.max_entries : Nat) : Int) ∧
         live.mapFlags =
           ((if t = BPF_MAP_TYPE_DEVMAP ∨ t = BPF_MAP_TYPE_DEVMAP_HASH then
               md.map_flags ||| BPF_F_RDONLY_PROG
             else md.map_flags : Nat) : Int))) ∧
    (∀ (env : MapEnv) (objName pre : String) (md : MapDef) (name : String) (fd : Nat),
      md.zero = 0 →
      ¬ env.kvers < md.min_kver → ¬ md.max_kver ≤ env.kvers →
      (if env.pinExists (mapPinLoc pre objName md name) then
        env.retrieveFd (mapPinLoc pre objName md name)
       else env.createFd (createReqFor env md name)) = .ok fd →
      mapMatchesExpectations (env.attrs fd) md (adjustedType env md) env.pageSize = false →
      createMapStep env objName pre md name = .fail (-ENOTUNIQ)
        (if env.pinExists (mapPinLoc pre objName md name) then
          [Event.mapRetrieve (mapPinLoc pre objName md name)]
         else [Event.mapCreate (createReqFor env md name)])) ∧
    (∀ (env : MapEnv) (objName pre : String) (md : MapDef) (name : String)
      (fd : Nat) (evs : List Event),
      createMapStep env objName pre md name = .ok (some fd) evs →
      mapMatchesExpectations (env.attrs fd) md (adjustedType env md) env.pageSize = true) := by
  refine ⟨?_, ?_, ?_⟩
  · intro live md t ps
    simp only [mapMatchesExpectations, Bool.and_eq_true, beq_iff_eq, and_assoc]
  · intro env objName pre md name fd hz h1 h2 hres hmis
    unfold createMapStep
    rw [if_neg (by omega), if_neg h1, if_neg h2]
    simp only [hres]
    simp [createMapFinish, hmis]
  · intro env objName pre md name fd evs h
    unfold createMapStep at h
    split_ifs at h
    · exact absurd h (by simp)
    · exact absurd h (by simp)
    · dsimp only at h
      cases hres : (if env.pinExists (mapPinLoc pre objName md name) = true then
          env.retrieveFd (mapPinLoc pre objName md name)
        else env.createFd (createReqFor env md name)) <;> rw [hres] at h
      · cases h
      · obtain ⟨hofd, hmatch⟩ := createMapFinish_ok _ _ _ _ _ _ _ _ _ h
        obtain rfl := Option.some.inj hofd
        exact hmatch

/-- **C3 witness.** A concrete reuse of a pinned hash map whose value size
(8) differs from the desired one (4) fails with `-ENOTUNIQ`; the matching
live attributes satisfy `mapMatchesExpectations`. -/
theorem c3_shape_verification_witness :
    createMapStep
      ⟨5, 4096, true, fun _ => true, fun _ => .ok 7, fun _ => .error 2,
       fun _ => ⟨1, 4, 8, 8, 0⟩, fun _ => none, fun _ _ => none, fun _ _ _ => none⟩
      "o" "" ⟨1, 4, 4, 8, 0, 0, 0, 0, 0, 10, false, 0⟩ "m" =
      .fail (-ENOTUNIQ) [Event.mapRetrieve "/sys/fs/bpf/map_o_m"] := by
  have := c3_shape_verification.2.1
      ⟨5, 4096, true, fun _ => true, fun _ => .ok 7, fun _ => .error 2,
       fun _ => ⟨1, 4, 8, 8, 0⟩, fun _ => none, fun _ _ => none, fun _ _ _ => none⟩
      "o" "" ⟨1, 4, 4, 8, 0, 0, 0, 0, 0, 10, false, 0⟩ "m" 7
      rfl (by decide) (by decide) rfl (by decide)
  simpa using this

/-- **C4 counterexample.** The static table is not bijective: `kprobe/` and
`kretprobe/` are distinct prefixes mapped to the same program type
(`BPF_PROG_TYPE_KPROBE`), and the round trip on the table prefix
`kretprobe/` returns `kprobe/`, whose prefix is not the original one. -/
theorem c4_roundtrip_counterexample :
    getSectionType 0 "kprobe/x" = getSectionType 0 "kretprobe/x" ∧
    ("kprobe/" : String) ≠ "kretprobe/" ∧
    getSectionName (getSectionType 0 "kretprobe/") = "kprobe/" ∧
    startsWith (getSectionName (getSectionType 0 "kretprobe/")) "kretprobe/" = false := by
  refine ⟨rfl, by decide, rfl, by decide⟩

/-- **C4 amended.** The prefix-to-type map of the static table is not
injective (the four probe prefixes share `BPF_PROG_TYPE_KPROBE`), so the
round trip recovers the program type but not necessarily the prefix: for
every prefix in the table, `get_section_type` yields that entry's type
(for any fuse type), `get_section_name` of that type is again a prefix of
the table paired with the same type, and classifying the returned name
yields the original type again. -/
theorem c4_roundtrip_amended (fuseType : Nat) :
    ∀ e ∈ sectionNameTypes,
      getSectionType fuseType e.1 = e.2.1 ∧
      (getSectionName (getSectionType fuseType e.1), e.2.1, BPF_ATTACH_TYPE_UNSPEC)
        ∈ sectionNameTypes ∧
      getSectionType fuseType (getSectionName (getSectionType fuseType e.1)) = e.2.1 := by
  intro e he
  fin_cases he <;> exact ⟨rfl, of_decide_eq_true rfl, rfl⟩

/-- **C4 witness.** The amended round trip at the table entry
`kretprobe/`. -/
theorem c4_roundtrip_amended_witness :
    getSectionType 0 "kretprobe/" = BPF_PROG_TYPE_KPROBE ∧
    (getSectionName (getSectionType 0 "kretprobe/"), BPF_PROG_TYPE_KPROBE,
      BPF_ATTACH_TYPE_UNSPEC) ∈ sectionNameTypes ∧
    getSectionType 0 (getSectionName (getSectionType 0 "kretprobe/")) =
      BPF_PROG_TYPE_KPROBE :=
  c4_roundtrip_amended 0 ("kretprobe/", BPF_PROG_TYPE_KPROBE, BPF_ATTACH_TYPE_UNSPEC)
    (by decide)

/-- **C5 counterexample.** For a `DEVMAP` MapDef with `map_flags = 0` the
creation request `createMaps` issues carries `map_flags = 0` — the
read-only-from-program flag is *not* ORed into the flags used to create the
map (the kernel itself sets it, per the comment in
`mapMatchesExpectations`); the iteration still succeeds because the live
flags the kernel reports include the flag. -/
theorem c5_devmap_flags_counterexample :
    createMapStep
      ⟨5, 4096, true, fun _ => false, fun _ => .error 2, fun _ => .ok 3,
       fun _ => ⟨14, 4, 4, 8, 128⟩, fun _ => none, fun _ _ => none, fun _ _ _ => none⟩
      "o" "" ⟨14, 4, 4, 8, 0, 0, 0, 0, 0, 10, false, 0⟩ "m" =
      .ok (some 3) [.mapCreate ⟨14, 4, 4, 8, 0, "m"⟩, .mapPin "/sys/fs/bpf/map_o_m"] ∧
    (⟨14, 4, 4, 8, 0, "m"⟩ : CreateReq).map_flags &&& BPF_F_RDONLY_PROG ≠
      BPF_F_RDONLY_PROG := by
  refine ⟨rfl, by decide⟩

/-- **C5 amended.** The OR of `BPF_F_RDONLY_PROG` happens only in the
expectation check, not in the creation request: (i) the request passes the
MapDef's `map_flags` through unchanged for every map; (ii) for a device-map
variant, a map accepted by `mapMatchesExpectations` (newly created or
reused) has live flags equal to `map_flags | BPF_F_RDONLY_PROG`, which
include the flag. -/
theorem c5_devmap_flags_amended :
    (∀ (env : MapEnv) (md : MapDef) (name : String),
      (createReqFor env md name).map_flags = md.map_flags) ∧
    (∀ (live : LiveAttrs) (md : MapDef) (t ps : Nat),
      (t = BPF_MAP_TYPE_DEVMAP ∨ t = BPF_MAP_TYPE_DEVMAP_HASH) →
      mapMatchesExpectations live md t ps = true →
      live.mapFlags = ((md.map_flags ||| BPF_F_RDONLY_PROG : Nat) : Int) ∧
      (md.map_flags ||| BPF_F_RDONLY_PROG) &&& BPF_F_RDONLY_PROG =
        BPF_F_RDONLY_PROG) := by
  constructor
  · intro env md name
    rfl
  · intro live md t ps ht hm
    simp only [mapMatchesExpectations, Bool.and_eq_true, beq_iff_eq] at hm
    refine ⟨?_, ?_⟩
    · rw [hm.2, if_pos ht]
    · apply Nat.eq_of_testBit_eq
      intro i
      simp only [Nat.testBit_and, Nat.testBit_or]
      cases md.map_flags.testBit i <;> cases (BPF_F_RDONLY_PROG).testBit i <;> rfl

/-- **C5 witness.** The amended statement at a concrete `DEVMAP` map with
`map_flags = 0` and matching live attributes `⟨14, 4, 4, 8, 128⟩`. -/
theorem c5_devmap_flags_amended_witness :
    (⟨14, 4, 4, 8, 128⟩ : LiveAttrs).mapFlags =
      (((0 : Nat) ||| BPF_F_RDONLY_PROG : Nat) : Int) ∧
    ((0 : Nat) ||| BPF_F_RDONLY_PROG) &&& BPF_F_RDONLY_PROG = BPF_F_RDONLY_PROG :=
  c5_devmap_flags_amended.2 ⟨14, 4, 4, 8, 128⟩ ⟨14, 4, 4, 8, 0, 0, 0, 0, 0, 10, false, 0⟩
    14 4096 (.inl rfl) (by decide)

/-- **C6 counterexample.** With an empty `progs` section the pairing yields
no ProgDef for a kept code section, yet the load of that section is *not*
permitted: `loadCodeSections` fails with `-EINVAL` (line 734-737 checks
`prog_def.has_value()` unconditionally), so "permitted exactly when `progs`
is empty" is false. -/
theorem c6_missing_progdef_counterexample :
    pairProgDef [] [] "tracepoint_x" = none ∧
    loadCodeSections
      ⟨5, fun _ => false, fun _ => -1, fun _ => (4, []), fun _ => none,
       fun _ => none, fun _ _ _ => none⟩ "o" ""
      [⟨5, 0, "tracepoint_x", 16, 0, none⟩] = .fail (-EINVAL) [] ∧
    ProgsOut.fail (-EINVAL) [] ≠ .ok [] := by
  refine ⟨rfl, rfl, by decide⟩

/-- **C6 amended.** A code section kept for loading without a paired ProgDef
always makes `loadCodeSections` fail with `-EINVAL` (MissingProgramDef),
whether or not the `progs` section is empty; emptiness of `progs` only
relaxes the code-section *reader's* requirement that the `progs` symbol
names be readable (line 408). -/
theorem c6_missing_progdef_amended (env : ProgEnv) (objName pre : String)
    (cs : CodeSec) (rest : List CodeSec)
    (hk : env.kvers ≠ 0) (hdef : cs.prog_def = none) :
    loadCodeSections env objName pre (cs :: rest) = .fail (-EINVAL) [] := by
  unfold loadCodeSections
  rw [if_neg hk]
  simp only [loadCSLoop, hdef]

/-- **C6 witness.** The amended statement at a concrete environment and a
section whose ProgDef is missing. -/
theorem c6_missing_progdef_amended_witness :
    loadCodeSections
      ⟨5, fun _ => true, fun _ => 9, fun _ => (9, []), fun _ => none,
       fun _ => none, fun _ _ _ => none⟩ "o" ""
      [⟨5, 0, "tracepoint_y", 16, 0, none⟩, ⟨5, 0, "tracepoint_z", 16, 0, none⟩] =
      .fail (-EINVAL) [] :=
  c6_missing_progdef_amended _ "o" "" _ _ (by decide) rfl

/-- **C7.** When the kernel verifier rejects a newly submitted program
(no pin existed, `BPF_PROG_LOAD` returned a negative fd), the installer
emits the verifier log line-by-line (`logLine` events, one per line of the
split log buffer); the loop continues with the next program exactly when
the ProgDef is marked optional, and otherwise the whole load fails with
that program's fd value. -/
theorem c7_optional_verifier_failure (env : ProgEnv) (objName pre : String)
    (cs : CodeSec) (rest : List CodeSec) (pd : ProgDefRec) (fd : Int)
    (log : List String)
    (hdef : cs.prog_def = some pd)
    (hgate : ¬ (env.kvers < pd.min_kver ∨ pd.max_kver ≤ env.kvers))
    (hpin : env.pinExists (progPinLoc pre objName (takeBeforeLast cs.name '$')) = false)
    (hload : env.bpfProgLoad cs.name = (fd, log))
    (hfd : fd < 0) :
    loadCSLoop env objName pre (cs :: rest) =
      if pd.optional then
        prependEvs (Event.progLoad cs.name :: log.map Event.logLine)
          (loadCSLoop env objName pre rest)
      else .fail fd (Event.progLoad cs.name :: log.map Event.logLine) := by
  simp only [loadCSLoop, hdef]
  rw [if_neg hgate]
  simp only [hpin, hload, Bool.false_eq_true, if_false, if_pos hfd]
  by_cases hopt : pd.optional
  · simp [hopt, hfd]
  · simp [hopt, hfd]

/-- **C7 witness.** A concrete optional program whose verifier load fails
with fd `-13` and a two-line log: the loop continues and — the section being
the last — the object load still returns Ok, with the log emitted
line-by-line. -/
theorem c7_optional_verifier_failure_witness :
    loadCSLoop
      ⟨5, fun _ => false, fun _ => -1, fun _ => (-13, ["line1", "line2"]),
       fun _ => none, fun _ => none, fun _ _ _ => none⟩ "o" ""
      [⟨5, 0, "tracepoint_x", 16, 0, some ⟨0, 0, 0, 10, true⟩⟩] =
      if (⟨0, 0, 0, 10, true⟩ : ProgDefRec).optional then
        prependEvs (Event.progLoad "tracepoint_x" ::
          ["line1", "line2"].map Event.logLine)
          (loadCSLoop
            ⟨5, fun _ => false, fun _ => -1, fun _ => (-13, ["line1", "line2"]),
             fun _ => none, fun _ => none, fun _ _ _ => none⟩ "o" "" [])
      else .fail (-13) (Event.progLoad "tracepoint_x" ::
        ["line1", "line2"].map Event.logLine) :=
  c7_optional_verifier_failure _ "o" "" _ [] ⟨0, 0, 0, 10, true⟩ (-13)
    ["line1", "line2"] rfl (by simp) rfl rfl (by decide)

/-- **C9 counterexample.** The claim's hypotheses (last section recognized
with non-empty data) do not suffice for the out-of-range access: a file
whose single recognized, non-empty last section has no `STT_FUNC` symbol
returns success at line 444 before the relocation-section lookup ever runs,
so no access at index `entries` happens. -/
theorem c9_rel_lookup_oob_counterexample :
    readCodeSectionsM 0 none ⟨[⟨"tracepoint/x", 5⟩], fun _ => [], [], []⟩ = .ok [] ∧
    getSectionType 0 "tracepoint/x" ≠ BPF_PROG_TYPE_UNSPEC ∧
    (0 : Nat) + 1 = ([(⟨"tracepoint/x", 5⟩ : ElfSectionM)] : List ElfSectionM).length ∧
    (⟨"tracepoint/x", 5⟩ : ElfSectionM).size > 0 ∧
    ReadCSOut.ok [] ≠ .oob 1 := by
  exact ⟨rfl, by decide, rfl, by decide, by decide⟩

/-- **C9 amended.** When the loop body of `readCodeSections` does reach the
relocation-section lookup at the last section header (index
`entries - 1`): the section is recognized, permitted, has non-empty data
*and at least one `STT_FUNC` symbol* — then the guard `i < entries` of
line 453 is true (it never keeps the index in bounds), the lookup accesses
`shTable[i + 1]` with `i + 1 = entries`, and that index is out of range for
the section-header table. -/
theorem c9_rel_lookup_oob_amended (fuseType : Nat) (allowed : Option (List Nat))
    (file : ElfFileM) (rem i : Nat) (acc : List CodeSec) (sec : ElfSectionM)
    (hsec : file.sections.get? i = some sec)
    (hlast : i + 1 = file.sections.length)
    (hrec : getSectionType fuseType sec.name ≠ BPF_PROG_TYPE_UNSPEC)
    (hallow : isAllowed fuseType (getSectionType fuseType sec.name) allowed = true)
    (hsyms : file.funcSyms sec.name ≠ [])
    (hsize : 0 < sec.size) :
    readCSLoop fuseType allowed file (rem + 1) i acc = .oob (i + 1) ∧
    (0 < sec.size ∧ i < file.sections.length) ∧
    ¬ i + 1 < file.sections.length := by
  have hguard : i < file.sections.length := by omega
  refine ⟨?_, ⟨hsize, hguard⟩, by omega⟩
  simp only [readCSLoop, hsec]
  rw [if_neg hrec, if_neg (not_not_intro hallow), if_neg hsyms,
    if_pos ⟨hsize, hguard⟩, List.get?_eq_none.mpr (by omega)]

/-- **C9 witness.** A one-section file whose `tracepoint/x` section has data
and a function symbol: the loop hits the out-of-range access at index 1 =
`entries`. -/
theorem c9_rel_lookup_oob_amended_witness :
    readCSLoop 0 none
      ⟨[⟨"tracepoint/x", 5⟩], fun _ => ["x"], ["x_def"], [⟨0, 0, 0, 10, false⟩]⟩
      1 0 [] = .oob 1 ∧
    (0 < (5 : Nat) ∧ 0 <
      ([(⟨"tracepoint/x", 5⟩ : ElfSectionM)] : List ElfSectionM).length) ∧
    ¬ 0 + 1 <
      ([(⟨"tracepoint/x", 5⟩ : ElfSectionM)] : List ElfSectionM).length := by
  have := c9_rel_lookup_oob_amended 0 none
    ⟨[⟨"tracepoint/x", 5⟩], fun _ => ["x"], ["x_def"], [⟨0, 0, 0, 10, false⟩]⟩
    0 0 [] ⟨"tracepoint/x", 5⟩ rfl rfl (by decide) rfl (by simp) (by decide)
  exact ⟨this.1, ⟨by decide, this.2.1.2⟩, this.2.2⟩

/-- **C10.** A recognized and allowed code section with no `STT_FUNC` symbol
makes `readCodeSections` return success (`ret = 0` at line 444) immediately
at that point: the result is exactly the sections accumulated so far, and
the remainder of the file — however many sections follow — is never
examined. -/
theorem c10_no_func_syms_early_ok (fuseType : Nat) (allowed : Option (List Nat))
    (file : ElfFileM) (rem i : Nat) (acc : List CodeSec) (sec : ElfSectionM)
    (hsec : file.sections.get? i = some sec)
    (hrec : getSectionType fuseType sec.name ≠ BPF_PROG_TYPE_UNSPEC)
    (hallow : isAllowed fuseType (getSectionType fuseType sec.name) allowed = true)
    (hsyms : file.funcSyms sec.name = []) :
    readCSLoop fuseType allowed file (rem + 1) i acc = .ok acc.reverse := by
  simp only [readCSLoop, hsec]
  rw [if_neg hrec, if_neg (not_not_intro hallow), if_pos hsyms]

/-- **C10 witness.** A two-section file whose first `tracepoint/a` section
has no function symbol: the whole read returns success with an empty list,
silently omitting the loadable `tracepoint/b` section that follows. -/
theorem c10_no_func_syms_early_ok_witness :
    readCSLoop 0 none
      ⟨[⟨"tracepoint/a", 5⟩, ⟨"tracepoint/b", 7⟩],
       fun s => if s = "tracepoint/b" then ["b"] else [], ["b_def"],
       [⟨0, 0, 0, 10, false⟩]⟩ 2 0 [] = .ok [] ∧
    readCodeSectionsM 0 none
      ⟨[⟨"tracepoint/a", 5⟩, ⟨"tracepoint/b", 7⟩],
       fun s => if s = "tracepoint/b" then ["b"] else [], ["b_def"],
       [⟨0, 0, 0, 10, false⟩]⟩ = .ok [] := by
  refine ⟨?_, rfl⟩
  exact c10_no_func_syms_early_ok 0 none
    ⟨[⟨"tracepoint/a", 5⟩, ⟨"tracepoint/b", 7⟩],
     fun s => if s = "tracepoint/b" then ["b"] else [], ["b_def"],
     [⟨0, 0, 0, 10, false⟩]⟩ 1 0 [] ⟨"tracepoint/a", 5⟩ rfl (by decide) rfl rfl

/-- **C8 counterexample.** `pathToObjName` strips from the *final period*,
not just a trailing `.o`: on the path `x.txt` (no trailing `.o`, no `@`) the
spec's description leaves `x.txt` unchanged, but the code yields `x`. -/
theorem c8_objname_counterexample :
    pathToObjName "x.txt" = "x" ∧ specObjName "x.txt" = "x.txt" ∧
    ("x" : String) ≠ "x.txt" := by
  refine ⟨rfl, rfl, by decide⟩

/-- **C8 amended.** The derived ObjectName is the final path component with
everything from the final `'.'` onward removed — which removes exactly the
trailing `.o` whenever the component ends in `.o` — and then everything from
the final `'@'` onward removed.  In particular, for any directory prefix and
any `base` and `tag` free of the separator characters `'/'` and `'@'`,
`dir/base.o` and `dir/base@tag.o` both yield `base` (so `foo@1.o` and
`foo.o` both yield `foo`). -/
theorem c8_objname_amended (dir base tag : String)
    (hb1 : '/' ∉ base.data) (hb2 : '@' ∉ base.data)
    (ht1 : '/' ∉ tag.data) (ht2 : '@' ∉ tag.data) :
    pathToObjName (dir ++ "/" ++ base ++ ".o") = base ∧
    pathToObjName (dir ++ "/" ++ base ++ "@" ++ tag ++ ".o") = base := by
  constructor
  · show takeBeforeLast (takeBeforeLast (lastComponent (dir ++ "/" ++ base ++ ".o")) '.') '@' = base
    have hdata : (dir ++ "/" ++ base ++ ".o").data =
        dir.data ++ '/' :: (base.data ++ '.' :: 'o' :: []) := by
      simp [String.data_append]
    have hnos : '/' ∉ base.data ++ '.' :: 'o' :: [] := by
      intro hmem
      rcases List.mem_append.mp hmem with h | h
      · exact hb1 h
      · revert h; decide
    rw [show (dir ++ "/" ++ base ++ ".o") = ⟨dir.data ++ '/' :: (base.data ++ '.' :: 'o' :: [])⟩
        from congrArg String.mk hdata]
    rw [lastComponent_append dir _ hnos]
    rw [show (⟨base.data ++ '.' :: 'o' :: []⟩ : String) = ⟨base.data ++ '.' :: ['o']⟩ from rfl]
    rw [takeBeforeLast_append '.' base.data ['o'] (by decide)]
    exact takeBeforeLast_no_occ '@' base hb2
  · show takeBeforeLast (takeBeforeLast
      (lastComponent (dir ++ "/" ++ base ++ "@" ++ tag ++ ".o")) '.') '@' = base
    have hdata : (dir ++ "/" ++ base ++ "@" ++ tag ++ ".o").data =
        dir.data ++ '/' :: ((base.data ++ '@' :: tag.data) ++ '.' :: 'o' :: []) := by
      simp [String.data_append]
    have hnos : '/' ∉ (base.data ++ '@' :: tag.data) ++ '.' :: 'o' :: [] := by
      intro hmem
      rcases List.mem_append.mp hmem with h | h
      · rcases List.mem_append.mp h with h' | h'
        · exact hb1 h'
        · rcases List.mem_cons.mp h' with h'' | h''
          · cases h''
          · exact ht1 h''
      · revert h; decide
    rw [show (dir ++ "/" ++ base ++ "@" ++ tag ++ ".o") =
        ⟨dir.data ++ '/' :: ((base.data ++ '@' :: tag.data) ++ '.' :: 'o' :: [])⟩
        from congrArg String.mk hdata]
    rw [lastComponent_append dir _ hnos]
    rw [show (⟨(base.data ++ '@' :: tag.data) ++ '.' :: 'o' :: []⟩ : String) =
        ⟨(base.data ++ '@' :: tag.data) ++ '.' :: ['o']⟩ from rfl]
    rw [takeBeforeLast_append '.' (base.data ++ '@' :: tag.data) ['o'] (by decide)]
    exact takeBeforeLast_append '@' base.data tag.data ht2

/-- **C8 witness.** The amended statement at `dir`, `base = foo`,
`tag = 1`: both `dir/foo.o` and `dir/foo@1.o` yield `foo`. -/
theorem c8_objname_amended_witness :
    pathToObjName ("dir" ++ "/" ++ "foo" ++ ".o") = "foo" ∧
    pathToObjName ("dir" ++ "/" ++ "foo" ++ "@" ++ "1" ++ ".o") = "foo" :=
  c8_objname_amended "dir" "foo" "1" (by decide) (by decide) (by decide) (by decide)

/-- **C1 witness.** A concrete relocation: one entry resolving to map name
`m` with fd 3, applied to a two-instruction stream whose first instruction
is a 64-bit immediate load. -/
theorem c1_relocation_effect_witness :
    (applyMapReloEntry ["m"] ["m"] [3] [⟨0x18, 1, 0, 0, 0⟩, ⟨7, 0, 0, 0, 0⟩] ⟨0, 0⟩).get? 0 =
      some ⟨0x18, 1, 1, 0, 3⟩ ∧
    ∀ k, k ≠ 0 →
      (applyMapReloEntry ["m"] ["m"] [3] [⟨0x18, 1, 0, 0, 0⟩, ⟨7, 0, 0, 0, 0⟩] ⟨0, 0⟩).get? k =
        [⟨0x18, 1, 0, 0, 0⟩, ⟨7, 0, 0, 0, 0⟩].get? k :=
  (c1_relocation_effect ["m"] ["m"] [3] [⟨0x18, 1, 0, 0, 0⟩, ⟨7, 0, 0, 0, 0⟩] ⟨0, 0⟩
    "m" 0 3 ⟨0x18, 1, 0, 0, 0⟩ rfl rfl rfl rfl).1 rfl

end BpfLoader
